import Mathlib

/-!
Shallow embedding of the ingest persistence layer of
`atcoder-problems-scraper` (`src/sql.rs`): the `SqlClient` repository with
its three upsert operations and three read operations against a
PostgreSQL store.

The tables and the effect of the issued statements are modelled explicitly:
a table is a list of rows, `INSERT ... ON CONFLICT (id) DO UPDATE SET
user_id = excluded.user_id` and `INSERT ... ON CONFLICT (id) DO NOTHING`
are folds over the batch, and the PostgreSQL rule that a single `ON
CONFLICT DO UPDATE` command may not affect the same row twice is modelled
by tracking the ids already affected by the statement.  Connection
establishment is modelled by an environment deciding, per fresh session
index and per URL, whether establishing succeeds; open sessions are
tracked in the world so that scoped release (Rust `Drop` at end of the
method body) is visible.
-/

namespace AtCoderProblems

/-- Record model for one row of `submissions` (struct `Submission`; its
field list appears in the struct literals of the tests in `src/sql.rs`
and in the schema of the spec).  `point` is an `f64` that the persistence
layer only stores and compares, never computes with; it is modelled as
`Rat`, a type with decidable equality carrying the value opaquely. -/
structure Submission where
  id : Int
  epoch_second : Int
  problem_id : String
  contest_id : String
  user_id : String
  language : String
  point : Rat
  length : Int
  result : String
  execution_time : Option Int
deriving DecidableEq, Repr

/-- Record model for one row of `contests` (struct `Contest`; field list
from the struct literals of the tests in `src/sql.rs` and the spec). -/
structure Contest where
  id : String
  start_epoch_second : Int
  duration_second : Int
  title : String
  rate_change : String
deriving DecidableEq, Repr

/-- Record model for one row of `problems` (struct `Problem`; field list
from the struct literals of the tests in `src/sql.rs` and the spec). -/
structure Problem where
  id : String
  contest_id : String
  title : String
deriving DecidableEq, Repr

/-- The three tables of the store. -/
structure DB where
  submissions : List Submission
  contests : List Contest
  problems : List Problem
deriving DecidableEq, Repr

/-- The empty store, as bootstrapped by `database-definition.sql`. -/
def DB.empty : DB := ⟨[], [], []⟩

/-- Effect of `INSERT ... ON CONFLICT (id) DO UPDATE SET user_id =
excluded.user_id` on the submissions table, processing the batch left to
right.  `touched` records the ids of rows already affected by this
statement: PostgreSQL rejects an `ON CONFLICT DO UPDATE` command that
would affect the same row a second time, and the whole statement then
fails. -/
def upsertSubmissionsGo :
    List Submission → List Int → Nat → List Submission →
    Except String (List Submission × Nat)
  | table, _, count, [] => Except.ok (table, count)
  | table, touched, count, v :: rest =>
    if v.id ∈ touched then
      Except.error "ON CONFLICT DO UPDATE command cannot affect row a second time"
    else if table.any (fun r => r.id = v.id) then
      upsertSubmissionsGo
        (table.map (fun r => if r.id = v.id then { r with user_id := v.user_id } else r))
        (v.id :: touched) (count + 1) rest
    else
      upsertSubmissionsGo (table ++ [v]) (v.id :: touched) (count + 1) rest

/-- The single statement issued by `SqlClient::insert_submissions`:
batch insert with `ON CONFLICT (id) DO UPDATE SET user_id =
excluded.user_id`, returning the new table and the number of rows
affected (inserted plus updated), or the store's error. -/
def submissionsStmt (table values : List Submission) :
    Except String (List Submission × Nat) :=
  upsertSubmissionsGo table [] 0 values

/-- Effect of `INSERT ... ON CONFLICT (key) DO NOTHING` on a table,
processing the batch left to right: a record whose key is already
present (in the prior table or inserted earlier in this statement) is
skipped and contributes zero to the count of rows inserted. -/
def doNothingGo {α β : Type} [DecidableEq β] (key : α → β) :
    List α → Nat → List α → List α × Nat
  | table, count, [] => (table, count)
  | table, count, v :: rest =>
    if table.any (fun r => key r = key v) then
      doNothingGo key table count rest
    else
      doNothingGo key (table ++ [v]) (count + 1) rest

/-- The single statement issued by `SqlClient::insert_contests`. -/
def contestsStmt (table values : List Contest) : List Contest × Nat :=
  doNothingGo Contest.id table 0 values

/-- The single statement issued by `SqlClient::insert_problems`. -/
def problemsStmt (table values : List Problem) : List Problem × Nat :=
  doNothingGo Problem.id table 0 values

/-- `pub struct SqlClient`: the four immutable configuration strings. -/
structure SqlClient where
  user : String
  pass : String
  host : String
  db : String
deriving DecidableEq, Repr

/-- `SqlClient::new`. -/
def SqlClient.new (user pass host db : String) : SqlClient :=
  ⟨user, pass, host, db⟩

/-- The URL assembled by `SqlClient::connect`:
`format!("postgresql://{}:{}@{}/{}", self.user, self.pass, self.host, self.db)`. -/
def SqlClient.connectUrl (c : SqlClient) : String :=
  "postgresql://" ++ c.user ++ ":" ++ c.pass ++ "@" ++ c.host ++ "/" ++ c.db

/-- The external store's response to an attempt to establish a session:
given the index of the fresh session being opened and the connection URL,
either the session is established or an establishment error (whose
textual rendering, the `{:?}` output, is the carried `String`) occurs. -/
def Env : Type := Nat → String → Except String Unit

/-- World state threaded through the repository's operations: the store's
tables, the index of the next session to be opened (each establishment
attempt uses a fresh index), and the indices of currently open sessions. -/
structure World where
  db : DB
  nextSession : Nat
  openSessions : List Nat
deriving Repr

/-- The initial world: empty store, no session ever opened. -/
def World.init : World := ⟨DB.empty, 0, []⟩

/-- `fn connect(&self)`: assemble the URL and establish a fresh session.
On failure the establishment error is rendered to text for the caller
(`map_err(|e| format!("{:?}", e))`, modelled as the error's textual
rendering itself).  On success the fresh session index is opened. -/
def SqlClient.connect (c : SqlClient) (env : Env) (w : World) :
    World × Except String Nat :=
  match env w.nextSession c.connectUrl with
  | Except.ok _ =>
      ({ w with nextSession := w.nextSession + 1,
                openSessions := w.nextSession :: w.openSessions },
       Except.ok w.nextSession)
  | Except.error e =>
      ({ w with nextSession := w.nextSession + 1 }, Except.error e)

/-- Closing a session (Rust drops the `PgConnection` when the method body
ends, on every exit path). -/
def closeSession (w : World) (s : Nat) : World :=
  { w with openSessions := w.openSessions.erase s }

/-- `SqlClient::insert_submissions`: connect, then execute the batch
upsert statement.  The statement is atomic: on failure the tables are
unchanged.  The session is released on every exit path. -/
def SqlClient.insert_submissions (c : SqlClient) (env : Env) (w : World)
    (values : List Submission) : World × Except String Nat :=
  match c.connect env w with
  | (w1, Except.error e) => (w1, Except.error e)
  | (w1, Except.ok s) =>
    match submissionsStmt w1.db.submissions values with
    | Except.ok (t, n) =>
        (closeSession { w1 with db := { w1.db with submissions := t } } s,
         Except.ok n)
    | Except.error e => (closeSession w1 s, Except.error e)

/-- `SqlClient::insert_contests`: connect, then execute the batch insert
with `ON CONFLICT (id) DO NOTHING`. -/
def SqlClient.insert_contests (c : SqlClient) (env : Env) (w : World)
    (values : List Contest) : World × Except String Nat :=
  match c.connect env w with
  | (w1, Except.error e) => (w1, Except.error e)
  | (w1, Except.ok s) =>
    match contestsStmt w1.db.contests values with
    | (t, n) =>
        (closeSession { w1 with db := { w1.db with contests := t } } s,
         Except.ok n)

/-- `SqlClient::insert_problems`: connect, then execute the batch insert
with `ON CONFLICT (id) DO NOTHING`. -/
def SqlClient.insert_problems (c : SqlClient) (env : Env) (w : World)
    (values : List Problem) : World × Except String Nat :=
  match c.connect env w with
  | (w1, Except.error e) => (w1, Except.error e)
  | (w1, Except.ok s) =>
    match problemsStmt w1.db.problems values with
    | (t, n) =>
        (closeSession { w1 with db := { w1.db with problems := t } } s,
         Except.ok n)

/-- `SqlClient::get_problems`: connect, then load every row of
`problems`. -/
def SqlClient.get_problems (c : SqlClient) (env : Env) (w : World) :
    World × Except String (List Problem) :=
  match c.connect env w with
  | (w1, Except.error e) => (w1, Except.error e)
  | (w1, Except.ok s) => (closeSession w1 s, Except.ok w1.db.problems)

/-- `SqlClient::get_contests`: connect, then load every row of
`contests`. -/
def SqlClient.get_contests (c : SqlClient) (env : Env) (w : World) :
    World × Except String (List Contest) :=
  match c.connect env w with
  | (w1, Except.error e) => (w1, Except.error e)
  | (w1, Except.ok s) => (closeSession w1 s, Except.ok w1.db.contests)

/-- `SqlClient::get_submissions`: connect, then load the rows of
`submissions` whose `user_id` equals the argument (`filter(user_id.eq(user_id))`,
PostgreSQL `text =`, an exact byte-for-byte comparison). -/
def SqlClient.get_submissions (c : SqlClient) (env : Env) (w : World)
    (user_id : String) : World × Except String (List Submission) :=
  match c.connect env w with
  | (w1, Except.error e) => (w1, Except.error e)
  | (w1, Except.ok s) =>
      (closeSession w1 s,
       Except.ok (w1.db.submissions.filter (fun r => r.user_id = user_id)))

/-- Applying the user-id updates of a batch to one prior row: if some
record of the batch carries this row's id, the row keeps every column but
takes that record's `user_id`. -/
def applyUserId (values : List Submission) (r : Submission) : Submission :=
  match values.find? (fun v => v.id = r.id) with
  | some v => { r with user_id := v.user_id }
  | none => r

/-- The submissions table expected after a successful batch upsert: prior
rows with only `user_id` rewritten where the batch hits them, followed by
the batch records whose id was not yet present, inserted whole. -/
def expectedUpsert (table values : List Submission) : List Submission :=
  table.map (applyUserId values)
    ++ values.filter (fun v => ! table.any (fun r => r.id = v.id))

/-- An environment in which every session establishment succeeds. -/
def envOk : Env := fun _ _ => Except.ok ()

/-- An environment in which every session establishment fails with a
fixed diagnostic. -/
def envFail : Env := fun _ _ => Except.error "could not connect to server"

/-- A concrete submission used to evaluate the operations. -/
def sampleSubmission : Submission :=
  { id := 1, epoch_second := 2, problem_id := "arc001_a",
    contest_id := "arc001", user_id := "kenkoooo", language := "Rust",
    point := 100, length := 200, result := "AC", execution_time := some 10 }

/-- The same submission id re-ingested under another user, with every
other field different as well. -/
def sampleSubmission2 : Submission :=
  { id := 1, epoch_second := 9, problem_id := "abc001_b",
    contest_id := "abc001", user_id := "ooooknek", language := "C++",
    point := 0, length := 7, result := "WA", execution_time := none }

/-- A concrete contest. -/
def sampleContest : Contest :=
  { id := "arc001", start_epoch_second := 100, duration_second := 6000,
    title := "Contest 1", rate_change := "-" }

/-- A second observation of the same contest id with different non-key
fields. -/
def sampleContest2 : Contest :=
  { id := "arc001", start_epoch_second := 999, duration_second := 1,
    title := "Contest 1 renamed", rate_change := "All" }

/-- A concrete problem. -/
def sampleProblem : Problem :=
  { id := "arc001_a", contest_id := "arc001", title := "Problem 1" }

/-- A second observation of the same problem id with a different title. -/
def sampleProblem2 : Problem :=
  { id := "arc001_a", contest_id := "arc999", title := "Problem 1 renamed" }

/-! ### Lemmas about `ON CONFLICT DO NOTHING` -/

theorem doNothingGo_length {α β : Type} [DecidableEq β] (key : α → β) :
    ∀ (values table : List α) (count : Nat),
      (doNothingGo key table count values).1.length + count
        = table.length + (doNothingGo key table count values).2
  | [], table, count => by simp [doNothingGo]
  | v :: rest, table, count => by
    by_cases h : table.any (fun r => key r = key v)
    · simpa [doNothingGo, h] using doNothingGo_length key rest table count
    · have := doNothingGo_length key rest (table ++ [v]) (count + 1)
      simp only [doNothingGo, h, if_neg, Bool.false_eq_true, ite_false,
        List.length_append, List.length_singleton] at this ⊢
      omega

theorem doNothingGo_all_conflict {α β : Type} [DecidableEq β] (key : α → β) :
    ∀ (values table : List α) (count : Nat),
      (∀ v ∈ values, table.any (fun r => key r = key v) = true) →
      doNothingGo key table count values = (table, count)
  | [], table, count, _ => by simp [doNothingGo]
  | v :: rest, table, count, h => by
    have hv := h v (by simp)
    rw [doNothingGo, if_pos hv]
    exact doNothingGo_all_conflict key rest table count
      (fun u hu => h u (List.mem_cons_of_mem _ hu))

theorem doNothingGo_nodup {α β : Type} [DecidableEq β] (key : α → β) :
    ∀ (values table : List α) (count : Nat),
      (table.map key).Nodup →
      ((doNothingGo key table count values).1.map key).Nodup
  | [], table, count, h => by simpa [doNothingGo] using h
  | v :: rest, table, count, h => by
    by_cases hc : table.any (fun r => key r = key v)
    · rw [doNothingGo, if_pos hc]
      exact doNothingGo_nodup key rest table count h
    · rw [doNothingGo, if_neg hc]
      refine doNothingGo_nodup key rest (table ++ [v]) (count + 1) ?_
      have hnot : ∀ r ∈ table, ¬ key r = key v := by
        intro r hr
        by_contra hk
        exact hc (List.any_eq_true.2 ⟨r, hr, by simpa using hk⟩)
      simp only [List.map_append, List.map_singleton, List.nodup_append]
      refine ⟨h, List.nodup_singleton _, ?_⟩
      intro b hb
      rcases List.mem_map.1 hb with ⟨r, hr, hrk⟩
      simp only [List.mem_singleton]
      intro hbv
      exact hnot r hr (by rw [hrk, hbv])

/-! ### Lemmas about `ON CONFLICT (id) DO UPDATE SET user_id = excluded.user_id` -/

theorem applyUserId_of_conflict (rest : List Submission) (v r : Submission)
    (hr : r.id = v.id) :
    applyUserId (v :: rest) r = { r with user_id := v.user_id } := by
  simp [applyUserId, List.find?_cons, hr.symm]

theorem applyUserId_of_ne (rest : List Submission) (v r : Submission)
    (hr : ¬ r.id = v.id) :
    applyUserId (v :: rest) r = applyUserId rest r := by
  simp only [applyUserId, List.find?_cons, decide_eq_true_eq]
  have hne : ¬ v.id = r.id := fun h => hr h.symm
  simp [hne]

theorem expectedUpsert_cons_conflict (table : List Submission)
    (v : Submission) (rest : List Submission)
    (hc : table.any (fun r => r.id = v.id) = true)
    (hv : v.id ∉ rest.map Submission.id) :
    expectedUpsert
      (table.map (fun r =>
        if r.id = v.id then { r with user_id := v.user_id } else r)) rest
      = expectedUpsert table (v :: rest) := by
  unfold expectedUpsert
  have hid : ∀ r : Submission,
      (if r.id = v.id then { r with user_id := v.user_id } else r).id = r.id := by
    intro r
    by_cases h : r.id = v.id <;> simp [h]
  congr 1
  · rw [List.map_map]
    refine List.map_congr_left ?_
    intro r _
    by_cases h : r.id = v.id
    · have h1 : applyUserId rest { r with user_id := v.user_id }
          = { r with user_id := v.user_id } := by
        rw [applyUserId, List.find?_eq_none.2 ?_]
        intro u hu
        simp only [decide_eq_true_eq]
        intro he
        exact hv (by rw [← h, ← he]; exact List.mem_map_of_mem Submission.id hu)
      simp only [Function.comp_apply, if_pos h, h1,
        applyUserId_of_conflict rest v r h]
    · simp only [Function.comp_apply, if_neg h, applyUserId_of_ne rest v r h]
  · have hv2 : (v :: rest).filter (fun u => ! table.any (fun r => r.id = u.id))
        = rest.filter (fun u => ! table.any (fun r => r.id = u.id)) := by
      rw [List.filter_cons, if_neg (by simp [hc])]
    rw [hv2]
    refine List.filter_congr ?_
    intro u _
    have : (table.map (fun r =>
        if r.id = v.id then { r with user_id := v.user_id } else r)).any
          (fun r => r.id = u.id)
        = table.any (fun r => r.id = u.id) := by
      rw [List.any_map]
      congr 1
      funext r
      simp [Function.comp, hid r]
    rw [this]

theorem expectedUpsert_cons_fresh (table : List Submission)
    (v : Submission) (rest : List Submission)
    (hc : table.any (fun r => r.id = v.id) = false)
    (hv : v.id ∉ rest.map Submission.id) :
    expectedUpsert (table ++ [v]) rest = expectedUpsert table (v :: rest) := by
  have hnot : ∀ r ∈ table, ¬ r.id = v.id := by
    intro r hr hk
    have : table.any (fun r => r.id = v.id) = true :=
      List.any_eq_true.2 ⟨r, hr, by simpa using hk⟩
    rw [this] at hc
    exact Bool.true_eq_false.mp hc
  unfold expectedUpsert
  have hmap : table.map (applyUserId rest)
      = table.map (applyUserId (v :: rest)) := by
    refine List.map_congr_left ?_
    intro r hr
    exact (applyUserId_of_ne rest v r (hnot r hr)).symm
  have hvfix : applyUserId rest v = v := by
    rw [applyUserId, List.find?_eq_none.2 ?_]
    intro u hu
    simp only [decide_eq_true_eq]
    intro he
    exact hv (by rw [← he]; exact List.mem_map_of_mem Submission.id hu)
  have hfilter : rest.filter
        (fun u => ! (table ++ [v]).any (fun r => r.id = u.id))
      = rest.filter (fun u => ! table.any (fun r => r.id = u.id)) := by
    refine List.filter_congr ?_
    intro u hu
    have huv : ¬ v.id = u.id := by
      intro he
      exact hv (by rw [he]; exact List.mem_map_of_mem Submission.id hu)
    simp [List.any_append, huv]
  have hconsf : (v :: rest).filter
        (fun u => ! table.any (fun r => r.id = u.id))
      = v :: rest.filter (fun u => ! table.any (fun r => r.id = u.id)) := by
    rw [List.filter_cons, if_pos (by simp [hc])]
  rw [List.map_append, List.map_singleton, hvfix, hmap, hfilter, hconsf]
  simp

theorem upsertGo_ok :
    ∀ (values table : List Submission) (touched : List Int) (count : Nat),
      (values.map Submission.id).Nodup →
      (∀ v ∈ values, v.id ∉ touched) →
      upsertSubmissionsGo table touched count values
        = Except.ok (expectedUpsert table values, count + values.length)
  | [], table, touched, count, _, _ => by
      have hid : ∀ r, applyUserId [] r = r := fun r => by simp [applyUserId]
      have hmap : ∀ t : List Submission, t.map (applyUserId []) = t := by
        intro t
        induction t with
        | nil => rfl
        | cons a t ih => simp [hid, ih]
      simp [upsertSubmissionsGo, expectedUpsert, hmap]
  | v :: rest, table, touched, count, hnd, hdis => by
      have hvt : v.id ∉ touched := hdis v (List.mem_cons_self v rest)
      have hnd' : (v.id :: rest.map Submission.id).Nodup := by simpa using hnd
      have hvrest : v.id ∉ rest.map Submission.id := (List.nodup_cons.1 hnd').1
      have hrestnd : (rest.map Submission.id).Nodup := (List.nodup_cons.1 hnd').2
      have hdis' : ∀ u ∈ rest, u.id ∉ (v.id :: touched) := by
        intro u hu
        simp only [List.mem_cons]
        rintro (he | ht)
        · exact hvrest (he ▸ List.mem_map_of_mem Submission.id hu)
        · exact hdis u (List.mem_cons_of_mem _ hu) ht
      have harith : count + 1 + rest.length = count + (v :: rest).length := by
        simp only [List.length_cons]
        omega
      rw [upsertSubmissionsGo, if_neg hvt]
      by_cases hc : table.any (fun r => r.id = v.id)
      · rw [if_pos hc,
          upsertGo_ok rest _ (v.id :: touched) (count + 1) hrestnd hdis',
          expectedUpsert_cons_conflict table v rest hc hvrest, harith]
      · rw [if_neg hc,
          upsertGo_ok rest _ (v.id :: touched) (count + 1) hrestnd hdis',
          expectedUpsert_cons_fresh table v rest (by simpa using hc) hvrest,
          harith]

theorem submissionsStmt_ok (table values : List Submission)
    (h : (values.map Submission.id).Nodup) :
    submissionsStmt table values
      = Except.ok (expectedUpsert table values, values.length) := by
  simpa [submissionsStmt] using
    upsertGo_ok values table [] 0 h (by simp)

theorem upsertGo_error :
    ∀ (values table : List Submission) (touched : List Int) (count : Nat),
      (¬ (values.map Submission.id).Nodup ∨ ∃ v ∈ values, v.id ∈ touched) →
      ∃ e, upsertSubmissionsGo table touched count values = Except.error e
  | [], _, _, _, h => by
      exfalso
      rcases h with h | ⟨v, hv, _⟩
      · exact h (by simp)
      · exact absurd hv (List.not_mem_nil v)
  | v :: rest, table, touched, count, h => by
      by_cases hvt : v.id ∈ touched
      · exact ⟨_, by rw [upsertSubmissionsGo, if_pos hvt]⟩
      · have hrest : ¬ (rest.map Submission.id).Nodup
            ∨ ∃ u ∈ rest, u.id ∈ (v.id :: touched) := by
          rcases h with h | ⟨u, hu, hut⟩
          · by_cases hin : v.id ∈ rest.map Submission.id
            · rcases List.mem_map.1 hin with ⟨u, hu, hue⟩
              exact Or.inr ⟨u, hu, by rw [hue]; exact List.mem_cons_self _ _⟩
            · refine Or.inl (fun hnd => h ?_)
              simpa using List.nodup_cons.2 ⟨hin, hnd⟩
          · rcases List.mem_cons.1 hu with rfl | hu'
            · exact absurd hut hvt
            · exact Or.inr ⟨u, hu', List.mem_cons_of_mem _ hut⟩
        rw [upsertSubmissionsGo, if_neg hvt]
        by_cases hc : table.any (fun r => r.id = v.id)
        · rw [if_pos hc]
          exact upsertGo_error rest _ _ _ hrest
        · rw [if_neg hc]
          exact upsertGo_error rest _ _ _ hrest

/-! ### Operation-level normal forms -/

theorem connect_ok (c : SqlClient) (env : Env) (w : World)
    (h : env w.nextSession c.connectUrl = Except.ok ()) :
    c.connect env w
      = ({ w with nextSession := w.nextSession + 1,
                  openSessions := w.nextSession :: w.openSessions },
         Except.ok w.nextSession) := by
  simp [SqlClient.connect, h]

theorem connect_error (c : SqlClient) (env : Env) (w : World) (e : String)
    (h : env w.nextSession c.connectUrl = Except.error e) :
    c.connect env w
      = ({ w with nextSession := w.nextSession + 1 }, Except.error e) := by
  simp [SqlClient.connect, h]

theorem insert_submissions_ok (c : SqlClient) (env : Env) (w : World)
    (values : List Submission)
    (hconn : env w.nextSession c.connectUrl = Except.ok ())
    (hv : (values.map Submission.id).Nodup) :
    c.insert_submissions env w values
      = ({ db := { w.db with
                    submissions := expectedUpsert w.db.submissions values },
           nextSession := w.nextSession + 1,
           openSessions := w.openSessions },
         Except.ok values.length) := by
  rw [SqlClient.insert_submissions, connect_ok c env w hconn]
  simp [submissionsStmt_ok _ _ hv, closeSession]

theorem insert_contests_ok (c : SqlClient) (env : Env) (w : World)
    (values : List Contest)
    (hconn : env w.nextSession c.connectUrl = Except.ok ()) :
    c.insert_contests env w values
      = ({ db := { w.db with
                    contests := (contestsStmt w.db.contests values).1 },
           nextSession := w.nextSession + 1,
           openSessions := w.openSessions },
         Except.ok (contestsStmt w.db.contests values).2) := by
  rw [SqlClient.insert_contests, connect_ok c env w hconn]
  simp [closeSession]

theorem insert_problems_ok (c : SqlClient) (env : Env) (w : World)
    (values : List Problem)
    (hconn : env w.nextSession c.connectUrl = Except.ok ()) :
    c.insert_problems env w values
      = ({ db := { w.db with
                    problems := (problemsStmt w.db.problems values).1 },
           nextSession := w.nextSession + 1,
           openSessions := w.openSessions },
         Except.ok (problemsStmt w.db.problems values).2) := by
  rw [SqlClient.insert_problems, connect_ok c env w hconn]
  simp [closeSession]

theorem get_problems_ok (c : SqlClient) (env : Env) (w : World)
    (hconn : env w.nextSession c.connectUrl = Except.ok ()) :
    c.get_problems env w
      = ({ w with nextSession := w.nextSession + 1 },
         Except.ok w.db.problems) := by
  rw [SqlClient.get_problems, connect_ok c env w hconn]
  simp [closeSession]

theorem get_contests_ok (c : SqlClient) (env : Env) (w : World)
    (hconn : env w.nextSession c.connectUrl = Except.ok ()) :
    c.get_contests env w
      = ({ w with nextSession := w.nextSession + 1 },
         Except.ok w.db.contests) := by
  rw [SqlClient.get_contests, connect_ok c env w hconn]
  simp [closeSession]

theorem get_submissions_ok (c : SqlClient) (env : Env) (w : World)
    (u : String)
    (hconn : env w.nextSession c.connectUrl = Except.ok ()) :
    c.get_submissions env w u
      = ({ w with nextSession := w.nextSession + 1 },
         Except.ok (w.db.submissions.filter (fun r => r.user_id = u))) := by
  rw [SqlClient.get_submissions, connect_ok c env w hconn]
  simp [closeSession]

theorem expectedUpsert_nil (table : List Submission) :
    expectedUpsert table [] = table := by
  have hid : ∀ r, applyUserId [] r = r := fun r => by simp [applyUserId]
  have hmap : ∀ t : List Submission, t.map (applyUserId []) = t := by
    intro t
    induction t with
    | nil => rfl
    | cons a t ih => simp [hid, ih]
  simp [expectedUpsert, hmap]

theorem find?_id_eq_some :
    ∀ (values : List Submission) (v : Submission),
      (values.map Submission.id).Nodup → v ∈ values →
      values.find? (fun u => u.id = v.id) = some v
  | [], v, _, hv => absurd hv (List.not_mem_nil v)
  | u :: rest, v, hnd, hv => by
    have hnd' : (u.id :: rest.map Submission.id).Nodup := by simpa using hnd
    by_cases he : u.id = v.id
    · have : v = u := by
        rcases List.mem_cons.1 hv with rfl | hv'
        · rfl
        · exact absurd (he ▸ List.mem_map_of_mem Submission.id hv')
            (List.nodup_cons.1 hnd').1
      rw [this, List.find?_cons]
      simp [he]
    · have hv' : v ∈ rest := by
        rcases List.mem_cons.1 hv with rfl | hv'
        · exact absurd rfl he
        · exact hv'
      rw [List.find?_cons]
      simp only [he, decide_False]
      exact find?_id_eq_some rest v (List.nodup_cons.1 hnd').2 hv'

theorem submissionsStmt_error (table values : List Submission)
    (h : ¬ (values.map Submission.id).Nodup) :
    ∃ e, submissionsStmt table values = Except.error e :=
  upsertGo_error values table [] 0 (Or.inl h)

theorem insert_submissions_run (c : SqlClient) (env : Env) (w : World)
    (values : List Submission)
    (hconn : env w.nextSession c.connectUrl = Except.ok ()) :
    c.insert_submissions env w values
      = match submissionsStmt w.db.submissions values with
        | Except.ok (t, n) =>
            ({ db := { w.db with submissions := t },
               nextSession := w.nextSession + 1,
               openSessions := w.openSessions },
             Except.ok n)
        | Except.error e =>
            ({ w with nextSession := w.nextSession + 1 }, Except.error e) := by
  rw [SqlClient.insert_submissions, connect_ok c env w hconn]
  rcases hs : submissionsStmt w.db.submissions values with e | ⟨t, n⟩ <;>
    simp [hs, closeSession]

theorem insert_submissions_connect_error (c : SqlClient) (env : Env)
    (w : World) (values : List Submission) (e : String)
    (h : env w.nextSession c.connectUrl = Except.error e) :
    c.insert_submissions env w values
      = ({ w with nextSession := w.nextSession + 1 }, Except.error e) := by
  rw [SqlClient.insert_submissions, connect_error c env w e h]

theorem insert_contests_connect_error (c : SqlClient) (env : Env)
    (w : World) (values : List Contest) (e : String)
    (h : env w.nextSession c.connectUrl = Except.error e) :
    c.insert_contests env w values
      = ({ w with nextSession := w.nextSession + 1 }, Except.error e) := by
  rw [SqlClient.insert_contests, connect_error c env w e h]

theorem insert_problems_connect_error (c : SqlClient) (env : Env)
    (w : World) (values : List Problem) (e : String)
    (h : env w.nextSession c.connectUrl = Except.error e) :
    c.insert_problems env w values
      = ({ w with nextSession := w.nextSession + 1 }, Except.error e) := by
  rw [SqlClient.insert_problems, connect_error c env w e h]

theorem get_problems_connect_error (c : SqlClient) (env : Env)
    (w : World) (e : String)
    (h : env w.nextSession c.connectUrl = Except.error e) :
    c.get_problems env w
      = ({ w with nextSession := w.nextSession + 1 }, Except.error e) := by
  rw [SqlClient.get_problems, connect_error c env w e h]

theorem get_contests_connect_error (c : SqlClient) (env : Env)
    (w : World) (e : String)
    (h : env w.nextSession c.connectUrl = Except.error e) :
    c.get_contests env w
      = ({ w with nextSession := w.nextSession + 1 }, Except.error e) := by
  rw [SqlClient.get_contests, connect_error c env w e h]

theorem get_submissions_connect_error (c : SqlClient) (env : Env)
    (w : World) (u : String) (e : String)
    (h : env w.nextSession c.connectUrl = Except.error e) :
    c.get_submissions env w u
      = ({ w with nextSession := w.nextSession + 1 }, Except.error e) := by
  rw [SqlClient.get_submissions, connect_error c env w e h]

/-! ### Claim theorems -/

/-- C8: the connection URL assembled by `connect` is exactly
`postgresql://<user>:<password>@<host>/<database>` — the four
configuration strings joined by the fixed separators, character for
character: its character sequence is the concatenation of the parts, its
length adds nothing beyond the 16 fixed characters (so no port and no
query string is appended), and a character occurs in the URL exactly when
it is a separator, part of the fixed scheme, or occurs verbatim in one of
the four components (so no component is percent-encoded or otherwise
rewritten). -/
theorem C8_connect_url_exact (c : SqlClient) :
    c.connectUrl.data
      = "postgresql://".data ++ c.user.data ++ [':'] ++ c.pass.data
          ++ ['@'] ++ c.host.data ++ ['/'] ++ c.db.data
  ∧ c.connectUrl.length
      = c.user.length + c.pass.length + c.host.length + c.db.length + 16
  ∧ ∀ ch : Char, ch ∈ c.connectUrl.data ↔
      (ch ∈ "postgresql://".data ∨ ch ∈ c.user.data ∨ ch = ':'
        ∨ ch ∈ c.pass.data ∨ ch = '@' ∨ ch ∈ c.host.data ∨ ch = '/'
        ∨ ch ∈ c.db.data) := by
  have hcolon : (":" : String).data = [':'] := rfl
  have hat : ("@" : String).data = ['@'] := rfl
  have hslash : ("/" : String).data = ['/'] := rfl
  have hdata : c.connectUrl.data
      = "postgresql://".data ++ c.user.data ++ [':'] ++ c.pass.data
          ++ ['@'] ++ c.host.data ++ ['/'] ++ c.db.data := by
    simp [SqlClient.connectUrl, String.data_append, hcolon, hat, hslash]
  refine ⟨hdata, ?_, ?_⟩
  · have hlen : c.connectUrl.length = c.connectUrl.data.length := rfl
    rw [hlen, hdata]
    simp only [List.length_append, List.length_singleton]
    have h13 : ("postgresql://" : String).data.length = 13 := rfl
    rw [h13]
    have hu : c.user.length = c.user.data.length := rfl
    have hp : c.pass.length = c.pass.data.length := rfl
    have hh : c.host.length = c.host.data.length := rfl
    have hd : c.db.length = c.db.data.length := rfl
    rw [hu, hp, hh, hd]
    omega
  · intro ch
    rw [hdata]
    simp only [List.mem_append, List.mem_singleton]
    tauto

/-- C5: `get_submissions u` returns exactly the stored submission rows
whose `user_id` equals `u` (Lean `String` equality: exact,
case-sensitive, no pattern matching), and for a user present in no row
it returns a successful empty sequence rather than an error. -/
theorem C5_get_submissions_exact (c : SqlClient) (env : Env) (w : World)
    (u : String)
    (hconn : env w.nextSession c.connectUrl = Except.ok ()) :
    (c.get_submissions env w u).2
      = Except.ok (w.db.submissions.filter (fun r => r.user_id = u))
  ∧ (∀ s : Submission,
      s ∈ w.db.submissions.filter (fun r => r.user_id = u)
        ↔ s ∈ w.db.submissions ∧ s.user_id = u)
  ∧ ((∀ s ∈ w.db.submissions, s.user_id ≠ u) →
      (c.get_submissions env w u).2 = Except.ok []) := by
  refine ⟨by rw [get_submissions_ok c env w u hconn], ?_, ?_⟩
  · intro s
    simp [List.mem_filter]
  · intro h
    rw [get_submissions_ok c env w u hconn]
    have : w.db.submissions.filter (fun r => r.user_id = u) = [] := by
      refine List.filter_eq_nil_iff.2 ?_
      intro s hs
      simpa using h s hs
    rw [this]

/-- Witness for C5 at concrete inputs: on the empty store,
`get_submissions "no-such-user"` succeeds with the empty sequence. -/
theorem C5_get_submissions_exact_witness :
    envOk World.init.nextSession (SqlClient.new "u" "p" "h" "d").connectUrl
      = Except.ok ()
  ∧ ((SqlClient.new "u" "p" "h" "d").get_submissions envOk World.init
      "no-such-user").2 = Except.ok [] :=
  ⟨rfl,
    (C5_get_submissions_exact (SqlClient.new "u" "p" "h" "d") envOk
      World.init "no-such-user" rfl).2.2
      (by simp [World.init, DB.empty])⟩

/-- C7: for the empty batch, `insert_submissions` returns a count of
zero and leaves the store unchanged (the statement is a no-op). -/
theorem C7_insert_submissions_empty (c : SqlClient) (env : Env) (w : World)
    (hconn : env w.nextSession c.connectUrl = Except.ok ()) :
    (c.insert_submissions env w []).2 = Except.ok 0
  ∧ ((c.insert_submissions env w []).1).db = w.db := by
  rw [insert_submissions_ok c env w [] hconn (by simp)]
  exact ⟨rfl, by simp [expectedUpsert_nil]⟩

/-- Witness for C7 at concrete inputs. -/
theorem C7_insert_submissions_empty_witness :
    envOk World.init.nextSession (SqlClient.new "u" "p" "h" "d").connectUrl
      = Except.ok ()
  ∧ ((SqlClient.new "u" "p" "h" "d").insert_submissions envOk
        World.init []).2 = Except.ok 0
  ∧ (((SqlClient.new "u" "p" "h" "d").insert_submissions envOk
        World.init []).1).db = World.init.db :=
  ⟨rfl,
    (C7_insert_submissions_empty (SqlClient.new "u" "p" "h" "d") envOk
      World.init rfl).1,
    (C7_insert_submissions_empty (SqlClient.new "u" "p" "h" "d") envOk
      World.init rfl).2⟩

/-- C9: the repository is stateless between calls: the client record
holds only the four configuration strings and is never modified (the
operations are functions of the immutable client), and every public
operation opens exactly one fresh session (a session index never used
before, `nextSession` strictly increasing) and closes it on every exit
path — after any call, success or failure, the set of open sessions is
exactly what it was before the call, so no session state survives into
the next call. -/
theorem C9_session_discipline (c : SqlClient) (env : Env) (w : World) :
    (∀ values : List Submission,
        ((c.insert_submissions env w values).1).openSessions
            = w.openSessions
      ∧ ((c.insert_submissions env w values).1).nextSession
            = w.nextSession + 1)
  ∧ (∀ values : List Contest,
        ((c.insert_contests env w values).1).openSessions = w.openSessions
      ∧ ((c.insert_contests env w values).1).nextSession
            = w.nextSession + 1)
  ∧ (∀ values : List Problem,
        ((c.insert_problems env w values).1).openSessions = w.openSessions
      ∧ ((c.insert_problems env w values).1).nextSession
            = w.nextSession + 1)
  ∧ (((c.get_problems env w).1).openSessions = w.openSessions
      ∧ ((c.get_problems env w).1).nextSession = w.nextSession + 1)
  ∧ (((c.get_contests env w).1).openSessions = w.openSessions
      ∧ ((c.get_contests env w).1).nextSession = w.nextSession + 1)
  ∧ (∀ u : String,
        ((c.get_submissions env w u).1).openSessions = w.openSessions
      ∧ ((c.get_submissions env w u).1).nextSession = w.nextSession + 1)
  ∧ SqlClient.new c.user c.pass c.host c.db = c := by
  rcases henv : env w.nextSession c.connectUrl with e | hu
  · refine ⟨?_, ?_, ?_, ?_, ?_, ?_, rfl⟩
    · intro values
      rw [insert_submissions_connect_error c env w values e henv]
      exact ⟨rfl, rfl⟩
    · intro values
      rw [insert_contests_connect_error c env w values e henv]
      exact ⟨rfl, rfl⟩
    · intro values
      rw [insert_problems_connect_error c env w values e henv]
      exact ⟨rfl, rfl⟩
    · rw [get_problems_connect_error c env w e henv]
      exact ⟨rfl, rfl⟩
    · rw [get_contests_connect_error c env w e henv]
      exact ⟨rfl, rfl⟩
    · intro u
      rw [get_submissions_connect_error c env w u e henv]
      exact ⟨rfl, rfl⟩
  · refine ⟨?_, ?_, ?_, ?_, ?_, ?_, rfl⟩
    · intro values
      rw [insert_submissions_run c env w values henv]
      rcases hs : submissionsStmt w.db.submissions values with e2 | ⟨t, n⟩
      · exact ⟨rfl, rfl⟩
      · exact ⟨rfl, rfl⟩
    · intro values
      rw [insert_contests_ok c env w values henv]
      exact ⟨rfl, rfl⟩
    · intro values
      rw [insert_problems_ok c env w values henv]
      exact ⟨rfl, rfl⟩
    · rw [get_problems_ok c env w henv]
      exact ⟨rfl, rfl⟩
    · rw [get_contests_ok c env w henv]
      exact ⟨rfl, rfl⟩
    · intro u
      rw [get_submissions_ok c env w u henv]
      exact ⟨rfl, rfl⟩

/-- C6: every operation fails atomically and propagates errors without
local recovery: when establishing the session fails, each of the six
operations returns the underlying diagnostic itself and leaves every
table unchanged, with exactly one establishment attempt (no retry:
`nextSession` advances by one); and whatever makes `insert_submissions`
fail — connection or statement execution — the tables are left exactly
as they were: the batch commits whole or not at all. -/
theorem C6_error_atomic_propagation (c : SqlClient) (env : Env) (w : World)
    (e : String)
    (henv : env w.nextSession c.connectUrl = Except.error e) :
    (∀ values : List Submission,
        (c.insert_submissions env w values).2 = Except.error e
      ∧ ((c.insert_submissions env w values).1).db = w.db
      ∧ ((c.insert_submissions env w values).1).nextSession
          = w.nextSession + 1)
  ∧ (∀ values : List Contest,
        (c.insert_contests env w values).2 = Except.error e
      ∧ ((c.insert_contests env w values).1).db = w.db)
  ∧ (∀ values : List Problem,
        (c.insert_problems env w values).2 = Except.error e
      ∧ ((c.insert_problems env w values).1).db = w.db)
  ∧ (c.get_problems env w).2 = Except.error e
  ∧ (c.get_contests env w).2 = Except.error e
  ∧ (∀ u : String, (c.get_submissions env w u).2 = Except.error e)
  ∧ (∀ (env2 : Env) (vs : List Submission) (e2 : String),
        (c.insert_submissions env2 w vs).2 = Except.error e2 →
        ((c.insert_submissions env2 w vs).1).db = w.db) := by
  refine ⟨?_, ?_, ?_, ?_, ?_, ?_, ?_⟩
  · intro values
    rw [insert_submissions_connect_error c env w values e henv]
    exact ⟨rfl, rfl, rfl⟩
  · intro values
    rw [insert_contests_connect_error c env w values e henv]
    exact ⟨rfl, rfl⟩
  · intro values
    rw [insert_problems_connect_error c env w values e henv]
    exact ⟨rfl, rfl⟩
  · rw [get_problems_connect_error c env w e henv]
  · rw [get_contests_connect_error c env w e henv]
  · intro u
    rw [get_submissions_connect_error c env w u e henv]
  · intro env2 vs e2
    rcases henv2 : env2 w.nextSession c.connectUrl with e3 | hu
    · rw [insert_submissions_connect_error c env2 w vs e3 henv2]
      intro _
      rfl
    · rw [insert_submissions_run c env2 w vs henv2]
      rcases hs : submissionsStmt w.db.submissions vs with e4 | ⟨t, n⟩
      · intro _
        rfl
      · intro h
        exact absurd h (by simp)

/-- Witness for C6 at concrete inputs: with a failing store the insert
returns the diagnostic and the store is untouched. -/
theorem C6_error_atomic_propagation_witness :
    envFail World.init.nextSession (SqlClient.new "u" "p" "h" "d").connectUrl
      = Except.error "could not connect to server"
  ∧ ((SqlClient.new "u" "p" "h" "d").insert_submissions envFail World.init
        [sampleSubmission]).2 = Except.error "could not connect to server"
  ∧ (((SqlClient.new "u" "p" "h" "d").insert_submissions envFail World.init
        [sampleSubmission]).1).db = World.init.db :=
  ⟨rfl,
    ((C6_error_atomic_propagation (SqlClient.new "u" "p" "h" "d") envFail
      World.init "could not connect to server" rfl).1 [sampleSubmission]).1,
    ((C6_error_atomic_propagation (SqlClient.new "u" "p" "h" "d") envFail
      World.init "could not connect to server" rfl).1 [sampleSubmission]).2.1⟩

/-- C1: `insert_submissions` inserts each record of the batch whose id
is not yet in the table as-is, and for each record whose id is already
present rewrites only the existing row's `user_id`, every other column
keeping its prior value; consequently after ingesting id `X` under user
`U1` and re-ingesting id `X` under a different user `U2`, exactly one
row with that id exists — the original row with only `user_id` changed —
`get_submissions U1` is empty and `get_submissions U2` has length 1. -/
theorem C1_insert_submissions_upsert (c : SqlClient) (env : Env)
    (henv : ∀ n u, env n u = Except.ok ()) (w : World)
    (values : List Submission) (hvals : (values.map Submission.id).Nodup)
    (s1 s2 : Submission) (hid : s1.id = s2.id)
    (huser : s1.user_id ≠ s2.user_id) :
    ((c.insert_submissions env w values).1).db.submissions
        = expectedUpsert w.db.submissions values
  ∧ (∀ v ∈ values, v.id ∉ w.db.submissions.map Submission.id →
        v ∈ ((c.insert_submissions env w values).1).db.submissions)
  ∧ (∀ r ∈ w.db.submissions, ∀ v ∈ values, v.id = r.id →
        { r with user_id := v.user_id }
          ∈ ((c.insert_submissions env w values).1).db.submissions)
  ∧ ((c.insert_submissions env
        (c.insert_submissions env World.init [s1]).1 [s2]).1).db.submissions
      = [{ s1 with user_id := s2.user_id }]
  ∧ (c.get_submissions env
        (c.insert_submissions env
          (c.insert_submissions env World.init [s1]).1 [s2]).1
        s1.user_id).2 = Except.ok []
  ∧ (c.get_submissions env
        (c.insert_submissions env
          (c.insert_submissions env World.init [s1]).1 [s2]).1
        s2.user_id).2
      = Except.ok [{ s1 with user_id := s2.user_id }] := by
  have hrw := insert_submissions_ok c env w values (henv _ _) hvals
  have h1 : (c.insert_submissions env World.init [s1]).1
      = { db := { DB.empty with submissions := [s1] },
          nextSession := 1, openSessions := [] } := by
    rw [insert_submissions_ok c env World.init [s1] (henv _ _) (by simp)]
    simp [World.init, DB.empty, expectedUpsert]
  have h2 : (c.insert_submissions env
        (c.insert_submissions env World.init [s1]).1 [s2]).1
      = { db := { DB.empty with
                    submissions := [{ s1 with user_id := s2.user_id }] },
          nextSession := 2, openSessions := [] } := by
    rw [h1, insert_submissions_ok c env _ [s2] (henv _ _) (by simp)]
    have hexp : expectedUpsert [s1] [s2]
        = [{ s1 with user_id := s2.user_id }] := by
      simp [expectedUpsert, applyUserId, List.find?_cons, hid]
    simpa using hexp
  have hne : s2.user_id ≠ s1.user_id := Ne.symm huser
  refine ⟨?_, ?_, ?_, ?_, ?_, ?_⟩
  · rw [hrw]
  · intro v hv hnotin
    rw [hrw]
    have hany : w.db.submissions.any (fun r => r.id = v.id) = false := by
      refine List.any_eq_false.2 ?_
      intro r hr
      simp only [decide_eq_true_eq]
      intro he
      exact hnotin (he ▸ List.mem_map_of_mem Submission.id hr)
    refine List.mem_append.2 (Or.inr ?_)
    exact List.mem_filter.2 ⟨hv, by simp [hany]⟩
  · intro r hr v hv hvr
    rw [hrw]
    have hfind : values.find? (fun u => u.id = r.id) = some v := by
      rw [← hvr]
      exact find?_id_eq_some values v hvals hv
    have happ : applyUserId values r = { r with user_id := v.user_id } := by
      rw [applyUserId, hfind]
    refine List.mem_append.2 (Or.inl ?_)
    rw [← happ]
    exact List.mem_map_of_mem (applyUserId values) hr
  · rw [h2]
  · rw [h2, get_submissions_ok c env _ s1.user_id (henv _ _)]
    simp [hne]
  · rw [h2, get_submissions_ok c env _ s2.user_id (henv _ _)]
    simp

/-- Witness for C1 at concrete inputs: re-ingesting submission id 1
under `ooooknek` makes it invisible to `kenkoooo` and visible, with only
`user_id` changed, to `ooooknek`. -/
theorem C1_insert_submissions_upsert_witness :
    sampleSubmission.id = sampleSubmission2.id
  ∧ sampleSubmission.user_id ≠ sampleSubmission2.user_id
  ∧ ((SqlClient.new "u" "p" "h" "d").get_submissions envOk
        ((SqlClient.new "u" "p" "h" "d").insert_submissions envOk
          ((SqlClient.new "u" "p" "h" "d").insert_submissions envOk
            World.init [sampleSubmission]).1
          [sampleSubmission2]).1
        sampleSubmission2.user_id).2
      = Except.ok
          [{ sampleSubmission with user_id := sampleSubmission2.user_id }] := by
  refine ⟨rfl, by decide, ?_⟩
  exact (C1_insert_submissions_upsert (SqlClient.new "u" "p" "h" "d") envOk
      (fun _ _ => rfl) World.init [sampleSubmission] (by decide)
      sampleSubmission sampleSubmission2 rfl (by decide)).2.2.2.2.2

/-- C2: `insert_contests` and `insert_problems` are idempotent
first-observation-wins operations: a batch made of records whose ids are
already present changes nothing, and after inserting a record and then
any record with the same id (even with different non-key fields) exactly
one row remains, carrying the first insert's non-key fields. -/
theorem C2_first_observation_wins (c : SqlClient) (env : Env)
    (henv : ∀ n u, env n u = Except.ok ()) (w : World)
    (vsC : List Contest)
    (hvsC : ∀ v ∈ vsC, w.db.contests.any (fun r => r.id = v.id) = true)
    (vsP : List Problem)
    (hvsP : ∀ v ∈ vsP, w.db.problems.any (fun r => r.id = v.id) = true)
    (k k2 : Contest) (hk : k2.id = k.id)
    (p p2 : Problem) (hp : p2.id = p.id) :
    ((c.insert_contests env w vsC).1).db.contests = w.db.contests
  ∧ ((c.insert_problems env w vsP).1).db.problems = w.db.problems
  ∧ ((c.insert_contests env
        (c.insert_contests env World.init [k]).1 [k2]).1).db.contests = [k]
  ∧ ((c.insert_problems env
        (c.insert_problems env World.init [p]).1 [p2]).1).db.problems
      = [p] := by
  have h1 : (c.insert_contests env World.init [k]).1
      = { db := { DB.empty with contests := [k] },
          nextSession := 1, openSessions := [] } := by
    rw [insert_contests_ok c env World.init [k] (henv _ _)]
    simp [World.init, DB.empty, contestsStmt, doNothingGo]
  have h2 : (c.insert_problems env World.init [p]).1
      = { db := { DB.empty with problems := [p] },
          nextSession := 1, openSessions := [] } := by
    rw [insert_problems_ok c env World.init [p] (henv _ _)]
    simp [World.init, DB.empty, problemsStmt, doNothingGo]
  refine ⟨?_, ?_, ?_, ?_⟩
  · rw [insert_contests_ok c env w vsC (henv _ _)]
    simp [contestsStmt,
      doNothingGo_all_conflict Contest.id vsC w.db.contests 0 hvsC]
  · rw [insert_problems_ok c env w vsP (henv _ _)]
    simp [problemsStmt,
      doNothingGo_all_conflict Problem.id vsP w.db.problems 0 hvsP]
  · rw [h1, insert_contests_ok c env _ [k2] (henv _ _)]
    simp [contestsStmt, doNothingGo, hk]
  · rw [h2, insert_problems_ok c env _ [p2] (henv _ _)]
    simp [problemsStmt, doNothingGo, hp]

/-- Witness for C2 at concrete inputs: re-inserting contest `arc001`
(resp. problem `arc001_a`) with different non-key fields keeps the first
observation's row. -/
theorem C2_first_observation_wins_witness :
    sampleContest2.id = sampleContest.id
  ∧ sampleProblem2.id = sampleProblem.id
  ∧ (((SqlClient.new "u" "p" "h" "d").insert_contests envOk
        ((SqlClient.new "u" "p" "h" "d").insert_contests envOk World.init
          [sampleContest]).1 [sampleContest2]).1).db.contests
      = [sampleContest]
  ∧ (((SqlClient.new "u" "p" "h" "d").insert_problems envOk
        ((SqlClient.new "u" "p" "h" "d").insert_problems envOk World.init
          [sampleProblem]).1 [sampleProblem2]).1).db.problems
      = [sampleProblem] := by
  refine ⟨rfl, rfl, ?_, ?_⟩
  · exact (C2_first_observation_wins (SqlClient.new "u" "p" "h" "d") envOk
      (fun _ _ => rfl) World.init [] (by simp) [] (by simp)
      sampleContest sampleContest2 rfl sampleProblem sampleProblem2
      rfl).2.2.1
  · exact (C2_first_observation_wins (SqlClient.new "u" "p" "h" "d") envOk
      (fun _ _ => rfl) World.init [] (by simp) [] (by simp)
      sampleContest sampleContest2 rfl sampleProblem sampleProblem2
      rfl).2.2.2

/-- C3: records round-trip through the persistence layer without loss: a
Problem (resp. Contest) inserted into the empty store is returned by
`get_problems` (resp. `get_contests`) as the one-element sequence equal
to the input field-for-field, and a Submission — whatever its
`execution_time`, absent or a value — is returned by `get_submissions`
of its user unchanged. -/
theorem C3_round_trip (c : SqlClient) (env : Env)
    (henv : ∀ n u, env n u = Except.ok ())
    (p : Problem) (k : Contest) (s : Submission) :
    (c.get_problems env (c.insert_problems env World.init [p]).1).2
      = Except.ok [p]
  ∧ (c.get_contests env (c.insert_contests env World.init [k]).1).2
      = Except.ok [k]
  ∧ (c.get_submissions env (c.insert_submissions env World.init [s]).1
        s.user_id).2 = Except.ok [s] := by
  have h1 : (c.insert_problems env World.init [p]).1
      = { db := { DB.empty with problems := [p] },
          nextSession := 1, openSessions := [] } := by
    rw [insert_problems_ok c env World.init [p] (henv _ _)]
    simp [World.init, DB.empty, problemsStmt, doNothingGo]
  have h2 : (c.insert_contests env World.init [k]).1
      = { db := { DB.empty with contests := [k] },
          nextSession := 1, openSessions := [] } := by
    rw [insert_contests_ok c env World.init [k] (henv _ _)]
    simp [World.init, DB.empty, contestsStmt, doNothingGo]
  have h3 : (c.insert_submissions env World.init [s]).1
      = { db := { DB.empty with submissions := [s] },
          nextSession := 1, openSessions := [] } := by
    rw [insert_submissions_ok c env World.init [s] (henv _ _) (by simp)]
    simp [World.init, DB.empty, expectedUpsert]
  refine ⟨?_, ?_, ?_⟩
  · rw [h1, get_problems_ok c env _ (henv _ _)]
  · rw [h2, get_contests_ok c env _ (henv _ _)]
  · rw [h3, get_submissions_ok c env _ s.user_id (henv _ _)]
    simp

/-- Witness for C3 at concrete inputs, including a submission whose
`execution_time` is present (`some 10`) and one where it is absent. -/
theorem C3_round_trip_witness :
    ((SqlClient.new "u" "p" "h" "d").get_problems envOk
        ((SqlClient.new "u" "p" "h" "d").insert_problems envOk World.init
          [sampleProblem]).1).2 = Except.ok [sampleProblem]
  ∧ ((SqlClient.new "u" "p" "h" "d").get_submissions envOk
        ((SqlClient.new "u" "p" "h" "d").insert_submissions envOk
          World.init [sampleSubmission]).1 sampleSubmission.user_id).2
      = Except.ok [sampleSubmission]
  ∧ ((SqlClient.new "u" "p" "h" "d").get_submissions envOk
        ((SqlClient.new "u" "p" "h" "d").insert_submissions envOk
          World.init [sampleSubmission2]).1 sampleSubmission2.user_id).2
      = Except.ok [sampleSubmission2] :=
  ⟨(C3_round_trip (SqlClient.new "u" "p" "h" "d") envOk (fun _ _ => rfl)
      sampleProblem sampleContest sampleSubmission).1,
   (C3_round_trip (SqlClient.new "u" "p" "h" "d") envOk (fun _ _ => rfl)
      sampleProblem sampleContest sampleSubmission).2.2,
   (C3_round_trip (SqlClient.new "u" "p" "h" "d") envOk (fun _ _ => rfl)
      sampleProblem sampleContest sampleSubmission2).2.2⟩

/-- C4: on success `insert_submissions` reports every row the statement
affected — inserted or conflict-updated, one per batch record — while
`insert_contests` and `insert_problems` report only the rows actually
inserted: the table grows by exactly the reported count, and a batch
made entirely of conflicting records reports zero. -/
theorem C4_insert_counts (c : SqlClient) (env : Env) (w : World)
    (hconn : env w.nextSession c.connectUrl = Except.ok ())
    (vs : List Submission) (hvs : (vs.map Submission.id).Nodup)
    (ks : List Contest) (ps : List Problem)
    (ksConf : List Contest)
    (hksConf : ∀ v ∈ ksConf, w.db.contests.any (fun r => r.id = v.id) = true)
    (psConf : List Problem)
    (hpsConf : ∀ v ∈ psConf, w.db.problems.any (fun r => r.id = v.id) = true) :
    (c.insert_submissions env w vs).2 = Except.ok vs.length
  ∧ (∃ n, (c.insert_contests env w ks).2 = Except.ok n
      ∧ ((c.insert_contests env w ks).1).db.contests.length
          = w.db.contests.length + n)
  ∧ (c.insert_contests env w ksConf).2 = Except.ok 0
  ∧ (∃ n, (c.insert_problems env w ps).2 = Except.ok n
      ∧ ((c.insert_problems env w ps).1).db.problems.length
          = w.db.problems.length + n)
  ∧ (c.insert_problems env w psConf).2 = Except.ok 0 := by
  refine ⟨?_, ?_, ?_, ?_, ?_⟩
  · rw [insert_submissions_ok c env w vs hconn hvs]
  · rw [insert_contests_ok c env w ks hconn]
    refine ⟨(contestsStmt w.db.contests ks).2, rfl, ?_⟩
    have := doNothingGo_length Contest.id ks w.db.contests 0
    simp only [contestsStmt]
    omega
  · rw [insert_contests_ok c env w ksConf hconn]
    simp [contestsStmt,
      doNothingGo_all_conflict Contest.id ksConf w.db.contests 0 hksConf]
  · rw [insert_problems_ok c env w ps hconn]
    refine ⟨(problemsStmt w.db.problems ps).2, rfl, ?_⟩
    have := doNothingGo_length Problem.id ps w.db.problems 0
    simp only [problemsStmt]
    omega
  · rw [insert_problems_ok c env w psConf hconn]
    simp [problemsStmt,
      doNothingGo_all_conflict Problem.id psConf w.db.problems 0 hpsConf]

/-- Witness for C4 at concrete inputs. -/
theorem C4_insert_counts_witness :
    envOk World.init.nextSession (SqlClient.new "u" "p" "h" "d").connectUrl
      = Except.ok ()
  ∧ (([sampleSubmission].map Submission.id).Nodup)
  ∧ ((SqlClient.new "u" "p" "h" "d").insert_submissions envOk World.init
        [sampleSubmission]).2 = Except.ok [sampleSubmission].length
  ∧ ((SqlClient.new "u" "p" "h" "d").insert_contests envOk World.init
        []).2 = Except.ok 0 := by
  refine ⟨rfl, by decide, ?_, ?_⟩
  · exact (C4_insert_counts (SqlClient.new "u" "p" "h" "d") envOk World.init
      rfl [sampleSubmission] (by decide) [sampleContest] [sampleProblem]
      [] (by simp) [] (by simp)).1
  · exact (C4_insert_counts (SqlClient.new "u" "p" "h" "d") envOk World.init
      rfl [sampleSubmission] (by decide) [sampleContest] [sampleProblem]
      [] (by simp) [] (by simp)).2.2.1

/-- C10: a batch handed to `insert_submissions` that contains two
records with the same id makes the whole statement fail and leaves the
submissions table unchanged — the conflict-update policy relates the
batch to previously stored rows only — whereas `insert_contests` and
`insert_problems` accept intra-batch duplicate ids, never fail once
connected, preserve key uniqueness, and keep one row per id (the first
occurrence). -/
theorem C10_intra_batch_duplicates (c : SqlClient) (env : Env)
    (henv : ∀ n u, env n u = Except.ok ()) (w : World)
    (vs : List Submission) (hdup : ¬ (vs.map Submission.id).Nodup)
    (k1 k2 : Contest) (hk : k2.id = k1.id)
    (p1 p2 : Problem) (hp : p2.id = p1.id) :
    (∃ e, (c.insert_submissions env w vs).2 = Except.error e)
  ∧ ((c.insert_submissions env w vs).1).db = w.db
  ∧ (∀ cs : List Contest,
        ∃ n, (c.insert_contests env w cs).2 = Except.ok n)
  ∧ (∀ qs : List Problem,
        ∃ n, (c.insert_problems env w qs).2 = Except.ok n)
  ∧ (∀ cs : List Contest, (w.db.contests.map Contest.id).Nodup →
        (((c.insert_contests env w cs).1).db.contests.map Contest.id).Nodup)
  ∧ (∀ qs : List Problem, (w.db.problems.map Problem.id).Nodup →
        (((c.insert_problems env w qs).1).db.problems.map Problem.id).Nodup)
  ∧ ((c.insert_contests env World.init [k1, k2]).1).db.contests = [k1]
  ∧ ((c.insert_problems env World.init [p1, p2]).1).db.problems = [p1] := by
  rcases submissionsStmt_error w.db.submissions vs hdup with ⟨e, he⟩
  have hrun : c.insert_submissions env w vs
      = ({ w with nextSession := w.nextSession + 1 }, Except.error e) := by
    rw [insert_submissions_run c env w vs (henv _ _), he]
  refine ⟨⟨e, by rw [hrun]⟩, by rw [hrun], ?_, ?_, ?_, ?_, ?_, ?_⟩
  · intro cs
    rw [insert_contests_ok c env w cs (henv _ _)]
    exact ⟨_, rfl⟩
  · intro qs
    rw [insert_problems_ok c env w qs (henv _ _)]
    exact ⟨_, rfl⟩
  · intro cs hnd
    rw [insert_contests_ok c env w cs (henv _ _)]
    exact doNothingGo_nodup Contest.id cs w.db.contests 0 hnd
  · intro qs hnd
    rw [insert_problems_ok c env w qs (henv _ _)]
    exact doNothingGo_nodup Problem.id qs w.db.problems 0 hnd
  · rw [insert_contests_ok c env World.init [k1, k2] (henv _ _)]
    simp [World.init, DB.empty, contestsStmt, doNothingGo, hk]
  · rw [insert_problems_ok c env World.init [p1, p2] (henv _ _)]
    simp [World.init, DB.empty, problemsStmt, doNothingGo, hp]

/-- Witness for C10 at concrete inputs: a batch carrying submission id 1
twice fails and leaves the (empty) store untouched, while a contest
batch carrying `arc001` twice keeps exactly the first row. -/
theorem C10_intra_batch_duplicates_witness :
    ¬ (([sampleSubmission, sampleSubmission2].map Submission.id).Nodup)
  ∧ (((SqlClient.new "u" "p" "h" "d").insert_submissions envOk World.init
        [sampleSubmission, sampleSubmission2]).1).db = World.init.db
  ∧ (((SqlClient.new "u" "p" "h" "d").insert_contests envOk World.init
        [sampleContest, sampleContest2]).1).db.contests = [sampleContest]
  ∧ (((SqlClient.new "u" "p" "h" "d").insert_problems envOk World.init
        [sampleProblem, sampleProblem2]).1).db.problems = [sampleProblem] := by
  refine ⟨by decide, ?_, ?_, ?_⟩
  · exact (C10_intra_batch_duplicates (SqlClient.new "u" "p" "h" "d") envOk
      (fun _ _ => rfl) World.init [sampleSubmission, sampleSubmission2]
      (by decide) sampleContest sampleContest2 rfl
      sampleProblem sampleProblem2 rfl).2.1
  · exact (C10_intra_batch_duplicates (SqlClient.new "u" "p" "h" "d") envOk
      (fun _ _ => rfl) World.init [sampleSubmission, sampleSubmission2]
      (by decide) sampleContest sampleContest2 rfl
      sampleProblem sampleProblem2 rfl).2.2.2.2.2.2.1
  · exact (C10_intra_batch_duplicates (SqlClient.new "u" "p" "h" "d") envOk
      (fun _ _ => rfl) World.init [sampleSubmission, sampleSubmission2]
      (by decide) sampleContest sampleContest2 rfl
      sampleProblem sampleProblem2 rfl).2.2.2.2.2.2.2

end AtCoderProblems
